import Mathlib

/-!
Forwarder (pkg/services/forwarder/tcp.go): routing decision and port header.

A shallow embedding of `forwarder.TCP`: the handler registered with
`tcp.NewForwarder` (the outbound connection resolver) and the handler registered
with `SetStreamHandler` (the inbound overlay listener).

Both handlers only talk to external collaborators (the virtual stack, the peer
registry, the overlay host, the host network), so each one is embedded as a
function from the answers of those collaborators to the ordered list of calls it
makes.  Logging calls (`log.Infof`, `log.Warnf`, ...) and the pure wrapping of a
stream into a `net.Conn` (`NewStreamConn`, `net.ResolveTCPAddr`) touch none of
the modelled collaborators and are left out of the list.
-/

namespace Forwarder

/-! ## Data model -/

/-- Bytes are natural numbers below 256. -/
abbrev Byte := Nat

/-- Model of `tcpip.Address`: the significant bytes of the address; the length of
the list is the `length` field (4 for IPv4, 16 for IPv6). -/
abbrev Address := List Byte

/-- Model of libp2p `peer.ID`, a Go string type holding the raw multihash: the bytes
of that string; the zero value is the empty list. -/
abbrev PeerID := List Byte

/-- Model of `tcpip.Subnet`: an address and a mask of the same length. -/
structure Subnet where
  address : Address
  mask : List Byte
deriving DecidableEq, Repr

/-- Constant `linkLocalSubnet = "169.254.0.0/16"` (tcp.go line 25), given as the
network address and mask that `net.ParseCIDR` computes for it. -/
def linkLocalSubnet : Address × List Byte := ([169, 254, 0, 0], [255, 255, 0, 0])

/-- Constant `LIBP2P_TAP_TCP` (tcp.go line 26). -/
def LIBP2P_TAP_TCP : String := "/gvisor/libp2p-tap-tcp/1.0.0"

/-- The function `linkLocal` (tcp.go lines 171-175): the subnet built from the parsed
CIDR constant. -/
def linkLocal : Subnet :=
  { address := linkLocalSubnet.1, mask := linkLocalSubnet.2 }

/-- Bytewise comparison loop of `tcpip.Subnet.Contains`:
`a.addr[i] & s.mask[i] != s.address.addr[i]` makes the result false. -/
def containsLoop : List Byte → List Byte → List Byte → Bool
  | a :: as, m :: ms, s :: ss => if (a &&& m) ≠ s then false else containsLoop as ms ss
  | _, _, _ => true

/-- Model of gvisor `tcpip.Subnet.Contains`: false when the lengths differ, otherwise
every address byte masked by the subnet mask equals the subnet address byte. -/
def Subnet.Contains (s : Subnet) (a : Address) : Bool :=
  if a.length ≠ s.address.length then false
  else containsLoop a s.mask s.address

/-! ## Port header codec (encoding/binary, big endian) -/

/-- Model of `binary.BigEndian.PutUint16(buf, v)` on a fresh 2-byte buffer:
`b[0] = byte(v >> 8)`, `b[1] = byte(v)`. -/
def PutUint16 (v : Nat) : List Byte :=
  [(v >>> 8) % 256, v % 256]

/-- Model of `binary.BigEndian.Uint16(b)`:
`uint16(b[1]) | uint16(b[0])<<8` in 16-bit arithmetic. -/
def Uint16 (b : List Byte) : Nat :=
  (b.getD 1 0) ||| (((b.getD 0 0) <<< 8) % 65536)

/-- Errors of `io.ReadFull`. -/
inductive ReadErr where
  | EOF
  | ErrUnexpectedEOF
deriving DecidableEq, Repr

/-- Model of `io.ReadFull(stream, buf)` for a buffer of `n` bytes, where `stream` is
the sequence of bytes the stream delivers before it closes or errors: an error
when fewer than `n` bytes arrive (`EOF` when none arrived), otherwise the first
`n` bytes. -/
def ReadFull (stream : List Byte) (n : Nat) : Except ReadErr (List Byte) :=
  if stream.length < n then
    (if stream.length = 0 then .error .EOF else .error .ErrUnexpectedEOF)
  else .ok (stream.take n)

/-! ## Collaborators and the calls made to them -/

/-- Model of `stack.TransportEndpointID`, the value of `r.ID()`; ports are `uint16`. -/
structure TransportEndpointID where
  LocalPort : Nat
  LocalAddress : Address
  RemotePort : Nat
  RemoteAddress : Address
deriving DecidableEq, Repr

/-- Error values of `r.CreateEndpoint`: the handler only tells
`*tcpip.ErrConnectionRefused` from every other error (for the log level). -/
inductive TcpErr where
  | ErrConnectionRefused
  | other
deriving DecidableEq, Repr

/-- One call made by a handler to a collaborator, with the arguments the handler
passed and, where the handler branches on it, whether the call returned without
error (`ok`). -/
inductive Event where
  /-- Call `r.Complete(sendReset)`. -/
  | Complete (sendReset : Bool)
  /-- Call `natLock.Lock()`. -/
  | Lock
  /-- Call `natLock.Unlock()`. -/
  | Unlock
  /-- Call `p2pHost.GetPeerByIP(a)`. -/
  | GetPeerByIP (a : Address)
  /-- Map read `nat[a]`. -/
  | natRead (a : Address)
  /-- Call `peer.Decode(s)`. -/
  | Decode (s : String)
  /-- Call `p2pHost.Host.NewStream(ctx, pid, proto)`. -/
  | NewStream (pid : PeerID) (proto : String) (ok : Bool)
  /-- Call `libp2pStream.Write(buf)`. -/
  | Write (buf : List Byte) (ok : Bool)
  /-- Deferred `libp2pStream.Close()`. -/
  | Close
  /-- Call `r.CreateEndpoint(&wq)`. -/
  | CreateEndpoint (ok : Bool)
  /-- Call `net.DialTimeout("tcp", fmt.Sprintf("%s:%d", host, port), seconds)`. -/
  | DialTimeout (host : Address) (port : Nat) (seconds : Nat) (ok : Bool)
  /-- Call `remote.HandleConn(...)`: the bridge between the two legs. -/
  | HandleConn
  /-- Call `io.ReadFull(stream, buf)` with a buffer of `n` bytes. -/
  | ReadFull (n : Nat) (ok : Bool)
  /-- Call `s.GetRouteTable()`. -/
  | GetRouteTable
  /-- Call `gonet.DialContextTCP` to `addr:port` on the virtual stack, with a
  timeout in seconds. -/
  | DialContextTCP (addr : Address) (port : Nat) (seconds : Nat) (ok : Bool)
deriving DecidableEq, Repr

/-- Answers of the collaborators during one run of a handler.  Every collaborator is
called at most once per run, so a function of the arguments is enough. -/
structure Env where
  /-- Answer of `p2pHost.GetPeerByIP`: `(peer, found)`. -/
  GetPeerByIP : Address → String × Bool
  /-- Content of the `nat` map when it is read: `nat[a]`, with `none` for a missing key. -/
  nat : Address → Option Address
  /-- Answer of `peer.Decode`: the peer ID and whether `err == nil`. -/
  Decode : String → PeerID × Bool
  /-- Whether `NewStream` returns `err == nil`. -/
  NewStream : PeerID → String → Bool
  /-- Whether `libp2pStream.Write` returns `err == nil`. -/
  Write : List Byte → Bool
  /-- Whether `net.DialTimeout` returns `err == nil`. -/
  DialTimeout : Address → Nat → Bool
  /-- The error of `r.CreateEndpoint`, `none` for `nil`. -/
  CreateEndpoint : Option TcpErr
  /-- Whether `gonet.DialContextTCP` returns `err == nil`. -/
  DialContextTCP : Address → Nat → Bool

/-- Conversion `uint16(x)`. -/
def uint16 (x : Nat) : Nat := x % 65536

/-! ## The forwarder handler (tcp.go lines 81-168) -/

/-- Lines 90-95, the statements between `natLock.Lock()` and `natLock.Unlock()`:
the values of `p2pAddress` and `localAddress` afterwards, and the calls made. -/
def TCP.lookup (env : Env) (localAddress : Address) : String × Address × List Event :=
  match env.GetPeerByIP localAddress with
  | (peer, true) => (peer, localAddress, [Event.GetPeerByIP localAddress])
  | (_, false) =>
    match env.nat localAddress with
    | some replaced =>
      ("", replaced, [Event.GetPeerByIP localAddress, Event.natRead localAddress])
    | none =>
      ("", localAddress, [Event.GetPeerByIP localAddress, Event.natRead localAddress])

/-- Lines 126-138 and 149-166: `r.CreateEndpoint`, then `r.Complete(false)`, then the
bridge unless the endpoint creation failed. -/
def TCP.endpointAndBridge (env : Env) : List Event :=
  match env.CreateEndpoint with
  | some _ => [Event.CreateEndpoint false, Event.Complete false]
  | none => [Event.CreateEndpoint true, Event.Complete false, Event.HandleConn]

/-- Lines 99-138, the branch `p2pAddress != ""`. -/
def TCP.overlay (env : Env) (r : TransportEndpointID) (p2pAddress : String) : List Event :=
  let peerID := (env.Decode p2pAddress).1
  if env.NewStream peerID LIBP2P_TAP_TCP = false then
    [Event.Decode p2pAddress, Event.NewStream peerID LIBP2P_TAP_TCP false]
  else
    let buf := PutUint16 (uint16 r.LocalPort)
    if env.Write buf = false then
      [Event.Decode p2pAddress, Event.NewStream peerID LIBP2P_TAP_TCP true,
        Event.Write buf false, Event.Close]
    else
      [Event.Decode p2pAddress, Event.NewStream peerID LIBP2P_TAP_TCP true,
        Event.Write buf true] ++ TCP.endpointAndBridge env ++ [Event.Close]

/-- Lines 141-166, the branch `p2pAddress == ""`.  The timeout passed to
`net.DialTimeout` is `3*time.Second` (the trailing comment on line 141 says 10). -/
def TCP.direct (env : Env) (r : TransportEndpointID) (localAddress : Address) : List Event :=
  if env.DialTimeout localAddress r.LocalPort = false then
    [Event.DialTimeout localAddress r.LocalPort 3 false, Event.Complete true]
  else
    [Event.DialTimeout localAddress r.LocalPort 3 true] ++ TCP.endpointAndBridge env

/-- The handler passed to `tcp.NewForwarder` (lines 81-168), run on the request with
ID `r`: the calls it makes, in order. -/
def TCP.forwarderHandler (env : Env) (r : TransportEndpointID) : List Event :=
  if linkLocal.Contains r.LocalAddress then
    [Event.Complete true]
  else
    match TCP.lookup env r.LocalAddress with
    | (p2pAddress, localAddress, calls) =>
      [Event.Lock] ++ calls ++ [Event.Unlock] ++
        (if p2pAddress ≠ "" then TCP.overlay env r p2pAddress
         else TCP.direct env r localAddress)

/-! ## The overlay stream handler (tcp.go lines 35-80) -/

/-- Lines 29-33: the parsed tap address, `127.0.0.1` when `tapIP` is not an IPv4
address (`parsed` is the value of `net.ParseIP(tapIP).To4()`, `none` for `nil`). -/
def TCP.tapIPv4 (parsed : Option Address) : Address :=
  match parsed with
  | some a => a
  | none => [127, 0, 0, 1]

/-- The handler passed to `SetStreamHandler` (lines 35-80), run on a stream that
delivers the bytes `stream` before it closes or errors. -/
def TCP.streamHandler (env : Env) (parsed : Option Address) (stream : List Byte) :
    List Event :=
  match ReadFull stream 2 with
  | .error _ => [Event.ReadFull 2 false]
  | .ok buf =>
    let targetPort := Uint16 buf
    if env.DialContextTCP (TCP.tapIPv4 parsed) targetPort = false then
      [Event.ReadFull 2 true, Event.GetRouteTable,
        Event.DialContextTCP (TCP.tapIPv4 parsed) targetPort 10 false]
    else
      [Event.ReadFull 2 true, Event.GetRouteTable,
        Event.DialContextTCP (TCP.tapIPv4 parsed) targetPort 10 true, Event.HandleConn]

/-! ## Observations on a list of calls -/

/-- The targets `(host, port)` of the direct dials in a list of calls. -/
def dials : List Event → List (Address × Nat)
  | [] => []
  | Event.DialTimeout h p _ _ :: es => (h, p) :: dials es
  | _ :: es => dials es

/-- The buffers passed to `libp2pStream.Write` in a list of calls. -/
def writes : List Event → List (List Byte)
  | [] => []
  | Event.Write b _ :: es => b :: writes es
  | _ :: es => writes es

/-- The arguments of the `r.Complete` calls in a list of calls. -/
def completes : List Event → List Bool
  | [] => []
  | Event.Complete b :: es => b :: completes es
  | _ :: es => completes es

/-- The `(peer ID, protocol)` arguments of the `NewStream` calls in a list of calls. -/
def streamOpens : List Event → List (PeerID × String)
  | [] => []
  | Event.NewStream pid proto _ :: es => (pid, proto) :: streamOpens es
  | _ :: es => streamOpens es

/-- Calls that may block on the network or hand the attempt over: stream open, header
write, direct dial, endpoint creation and the bridge. -/
def Event.isOutbound : Event → Bool
  | Event.NewStream _ _ _ => true
  | Event.Write _ _ => true
  | Event.DialTimeout _ _ _ _ => true
  | Event.CreateEndpoint _ => true
  | Event.HandleConn => true
  | _ => false

/-- Reads of the routing data: the peer-registry lookup and the NAT-map read. -/
def Event.isLookup : Event → Bool
  | Event.GetPeerByIP _ => true
  | Event.natRead _ => true
  | _ => false

/-- Calls on the NAT lock. -/
def Event.isLockOp : Event → Bool
  | Event.Lock => true
  | Event.Unlock => true
  | _ => false

/-- Endpoint creation or bridge. -/
def Event.isEndpointOrBridge : Event → Bool
  | Event.CreateEndpoint _ => true
  | Event.HandleConn => true
  | _ => false

/-- A stream open that returned without error. -/
def Event.isOpenOk : Event → Bool
  | Event.NewStream _ _ true => true
  | _ => false

/-- A write on the overlay stream. -/
def Event.isWrite : Event → Bool
  | Event.Write _ _ => true
  | _ => false

/-- A write on the overlay stream that returned without error. -/
def Event.isWriteOk : Event → Bool
  | Event.Write _ true => true
  | _ => false

/-- An endpoint creation that returned without error. -/
def Event.isEndpointOk : Event → Bool
  | Event.CreateEndpoint true => true
  | _ => false

/-- The bridge call. -/
def Event.isBridge : Event → Bool
  | Event.HandleConn => true
  | _ => false

/-- State of the NAT lock after the calls of a list, `held` being its state before. -/
def lockHeld (held : Bool) : List Event → Bool
  | [] => held
  | Event.Lock :: es => lockHeld true es
  | Event.Unlock :: es => lockHeld false es
  | _ :: es => lockHeld held es

/-- Check of a list of calls: every call satisfying `q` comes strictly after a call
satisfying `p`. -/
def precededBy (p q : Event → Bool) : List Event → Bool
  | [] => true
  | e :: es => !q e && (p e || precededBy p q es)

/-- Check of a list of calls against the lock state: every lookup is made with the
lock held and every outbound call with the lock not held. -/
def lockCheck (held : Bool) : List Event → Bool
  | [] => true
  | e :: es =>
    (!e.isLookup || held) && (!e.isOutbound || !held) && lockCheck (lockHeld held [e]) es

/-- Sample peer string: a base58 sha256 multihash, as the registry stores it. -/
def samplePeer : String := "QmYyQSo1c1Ym7orWxLYvCrM2EmxFTANf8wXmmE7DWjhx5N"

/-- The peer ID that `peer.Decode` returns for `samplePeer`: the 34 bytes of its
base58 decoding (multihash code 0x12, length 0x20, digest). -/
def samplePeerID : PeerID :=
  [18, 32, 157, 255, 59, 23, 215, 76, 244, 211, 138, 80, 216, 182, 56, 62, 146, 209,
    129, 161, 3, 149, 165, 231, 58, 114, 109, 204, 203, 210, 27, 246, 240, 185]

/-- Sample answers: no peer, empty NAT map, every network call succeeds; `peer.Decode`
is never reached and is given its answer on the empty string (error, zero ID). -/
def Env.allOk : Env :=
  { GetPeerByIP := fun _ => ("", false)
    nat := fun _ => none
    Decode := fun _ => ([], false)
    NewStream := fun _ _ => true
    Write := fun _ => true
    DialTimeout := fun _ _ => true
    CreateEndpoint := none
    DialContextTCP := fun _ _ => true }

/-- Sample answers: the registry claims every address for `samplePeer`, which
`peer.Decode` decodes to `samplePeerID`; the answer of `peer.Decode` is only
given for that string. -/
def Env.withPeer : Env :=
  { Env.allOk with
    GetPeerByIP := fun _ => (samplePeer, true)
    Decode := fun s => if s = samplePeer then (samplePeerID, true) else ([], false) }

/-- Sample answers: the registry reports `found = true` with an empty peer string,
and the NAT map translates every address to 192.168.1.9. -/
def Env.emptyPeer : Env :=
  { Env.allOk with
    GetPeerByIP := fun _ => ("", true)
    nat := fun _ => some [192, 168, 1, 9] }

/-- Sample answers: no peer, NAT entry to 192.168.1.9 for every address, and the
direct dial fails. -/
def Env.dialFails : Env :=
  { Env.allOk with
    nat := fun _ => some [192, 168, 1, 9]
    DialTimeout := fun _ _ => false }

/-- Sample answers: a peer is found and the stream open fails. -/
def Env.openFails : Env :=
  { Env.withPeer with NewStream := fun _ _ => false }

/-- Sample answers: a peer is found, the stream opens and the header write fails. -/
def Env.writeFails : Env :=
  { Env.withPeer with Write := fun _ => false }

/-- Sample request: destination 10.0.0.7:443, source 192.168.127.2:50000. -/
def sampleID : TransportEndpointID :=
  { LocalPort := 443, LocalAddress := [10, 0, 0, 7],
    RemotePort := 50000, RemoteAddress := [192, 168, 127, 2] }

/-! ## Codec lemmas -/

theorem Uint16_PutUint16 (p : Nat) (hp : p < 65536) : Uint16 (PutUint16 p) = p := by
  have h1 : p / 256 % 256 = p / 256 := Nat.mod_eq_of_lt (by omega)
  have h2 : p / 256 * 256 % 65536 = p / 256 * 256 := Nat.mod_eq_of_lt (by omega)
  have h3 : 2 ^ 8 * (p / 256) + p % 256 = 2 ^ 8 * (p / 256) ||| p % 256 :=
    Nat.mul_add_lt_is_or (by omega) (p / 256)
  simp only [Uint16, PutUint16, List.getD_cons_succ, List.getD_cons_zero,
    Nat.shiftLeft_eq, Nat.shiftRight_eq_div_pow]
  norm_num only [h1, h2] at h3 ⊢
  rw [Nat.lor_comm, Nat.mul_comm, ← h3]
  omega

theorem PutUint16_bytes (p : Nat) (hp : p < 65536) : PutUint16 p = [p / 256, p % 256] := by
  have h1 : p / 256 % 256 = p / 256 := Nat.mod_eq_of_lt (by omega)
  simp [PutUint16, Nat.shiftRight_eq_div_pow, h1]

theorem uint16_of_lt (p : Nat) (hp : p < 65536) : uint16 p = p := Nat.mod_eq_of_lt hp

/-! ## Shape of the handlers -/

theorem linkLocal_Contains (c d : Nat) : linkLocal.Contains [169, 254, c, d] = true := by
  have h1 : 169 &&& 255 = 169 := by decide
  have h2 : 254 &&& 255 = 254 := by decide
  simp [Subnet.Contains, linkLocal, linkLocalSubnet, containsLoop, h1, h2]

theorem endpointAndBridge_shape (env : Env) :
    TCP.endpointAndBridge env = [Event.CreateEndpoint false, Event.Complete false] ∨
    TCP.endpointAndBridge env
      = [Event.CreateEndpoint true, Event.Complete false, Event.HandleConn] := by
  unfold TCP.endpointAndBridge
  cases env.CreateEndpoint
  · exact Or.inr rfl
  · exact Or.inl rfl

theorem overlay_shape (env : Env) (r : TransportEndpointID) (peer : String) :
    TCP.overlay env r peer
      = [Event.Decode peer, Event.NewStream (env.Decode peer).1 LIBP2P_TAP_TCP false] ∨
    TCP.overlay env r peer
      = [Event.Decode peer, Event.NewStream (env.Decode peer).1 LIBP2P_TAP_TCP true,
          Event.Write (PutUint16 (uint16 r.LocalPort)) false, Event.Close] ∨
    TCP.overlay env r peer
      = [Event.Decode peer, Event.NewStream (env.Decode peer).1 LIBP2P_TAP_TCP true,
          Event.Write (PutUint16 (uint16 r.LocalPort)) true, Event.CreateEndpoint false,
          Event.Complete false, Event.Close] ∨
    TCP.overlay env r peer
      = [Event.Decode peer, Event.NewStream (env.Decode peer).1 LIBP2P_TAP_TCP true,
          Event.Write (PutUint16 (uint16 r.LocalPort)) true, Event.CreateEndpoint true,
          Event.Complete false, Event.HandleConn, Event.Close] := by
  unfold TCP.overlay
  by_cases h1 : env.NewStream (env.Decode peer).1 LIBP2P_TAP_TCP = false
  · exact Or.inl (by simp [h1])
  · by_cases h2 : env.Write (PutUint16 (uint16 r.LocalPort)) = false
    · exact Or.inr (Or.inl (by simp [h1, h2]))
    · rcases endpointAndBridge_shape env with he | he
      · exact Or.inr (Or.inr (Or.inl (by simp [h1, h2, he])))
      · exact Or.inr (Or.inr (Or.inr (by simp [h1, h2, he])))

theorem direct_shape (env : Env) (r : TransportEndpointID) (T : Address) :
    TCP.direct env r T = [Event.DialTimeout T r.LocalPort 3 false, Event.Complete true] ∨
    TCP.direct env r T
      = [Event.DialTimeout T r.LocalPort 3 true, Event.CreateEndpoint false,
          Event.Complete false] ∨
    TCP.direct env r T
      = [Event.DialTimeout T r.LocalPort 3 true, Event.CreateEndpoint true,
          Event.Complete false, Event.HandleConn] := by
  unfold TCP.direct
  by_cases h1 : env.DialTimeout T r.LocalPort = false
  · exact Or.inl (by simp [h1])
  · rcases endpointAndBridge_shape env with he | he
    · exact Or.inr (Or.inl (by simp [h1, he]))
    · exact Or.inr (Or.inr (by simp [h1, he]))

theorem forwarderHandler_shape (env : Env) (r : TransportEndpointID)
    (hres : linkLocal.Contains r.LocalAddress = false) :
    (∃ peer, env.GetPeerByIP r.LocalAddress = (peer, true) ∧ peer ≠ "" ∧
      TCP.forwarderHandler env r
        = [Event.Lock, Event.GetPeerByIP r.LocalAddress, Event.Unlock]
            ++ TCP.overlay env r peer) ∨
    (env.GetPeerByIP r.LocalAddress = ("", true) ∧
      TCP.forwarderHandler env r
        = [Event.Lock, Event.GetPeerByIP r.LocalAddress, Event.Unlock]
            ++ TCP.direct env r r.LocalAddress) ∨
    (∃ peer, env.GetPeerByIP r.LocalAddress = (peer, false) ∧
      TCP.forwarderHandler env r
        = [Event.Lock, Event.GetPeerByIP r.LocalAddress, Event.natRead r.LocalAddress,
            Event.Unlock]
            ++ TCP.direct env r ((env.nat r.LocalAddress).getD r.LocalAddress)) := by
  unfold TCP.forwarderHandler TCP.lookup
  rcases hg : env.GetPeerByIP r.LocalAddress with ⟨peer, found⟩
  cases found
  · refine Or.inr (Or.inr ⟨peer, rfl, ?_⟩)
    cases hn : env.nat r.LocalAddress <;> simp [hres]
  · by_cases hp : peer = ""
    · subst hp
      exact Or.inr (Or.inl ⟨rfl, by simp [hres]⟩)
    · exact Or.inl ⟨peer, rfl, hp, by simp [hres, hp]⟩

theorem overlay_open_ok (env : Env) (r : TransportEndpointID) (peer : String)
    (h : env.NewStream (env.Decode peer).1 LIBP2P_TAP_TCP = true) :
    TCP.overlay env r peer
      = [Event.Decode peer, Event.NewStream (env.Decode peer).1 LIBP2P_TAP_TCP true,
          Event.Write (PutUint16 (uint16 r.LocalPort)) false, Event.Close] ∨
    TCP.overlay env r peer
      = [Event.Decode peer, Event.NewStream (env.Decode peer).1 LIBP2P_TAP_TCP true,
          Event.Write (PutUint16 (uint16 r.LocalPort)) true, Event.CreateEndpoint false,
          Event.Complete false, Event.Close] ∨
    TCP.overlay env r peer
      = [Event.Decode peer, Event.NewStream (env.Decode peer).1 LIBP2P_TAP_TCP true,
          Event.Write (PutUint16 (uint16 r.LocalPort)) true, Event.CreateEndpoint true,
          Event.Complete false, Event.HandleConn, Event.Close] := by
  rcases overlay_shape env r peer with ho | ho | ho | ho
  · unfold TCP.overlay at ho
    simp [h] at ho
    split_ifs at ho <;> simp at ho
  · exact Or.inl ho
  · exact Or.inr (Or.inl ho)
  · exact Or.inr (Or.inr ho)

theorem direct_dial_fail (env : Env) (r : TransportEndpointID) (T : Address)
    (h : env.DialTimeout T r.LocalPort = false) :
    TCP.direct env r T = [Event.DialTimeout T r.LocalPort 3 false, Event.Complete true] := by
  simp [TCP.direct, h]

theorem writes_overlay_route (env : Env) (r : TransportEndpointID)
    (hres : linkLocal.Contains r.LocalAddress = false)
    (hfound : (env.GetPeerByIP r.LocalAddress).2 = true)
    (hne : (env.GetPeerByIP r.LocalAddress).1 ≠ "")
    (hopen : env.NewStream (env.Decode (env.GetPeerByIP r.LocalAddress).1).1
      LIBP2P_TAP_TCP = true) :
    writes (TCP.forwarderHandler env r) = [PutUint16 (uint16 r.LocalPort)] := by
  rcases forwarderHandler_shape env r hres with ⟨peer, hg, _, ht⟩ | ⟨hg, _⟩ | ⟨peer, hg, _⟩
  · rw [hg] at hopen
    rcases overlay_open_ok env r peer hopen with ho | ho | ho <;>
      rw [ht, ho] <;> simp [writes]
  · rw [hg] at hne
    exact absurd rfl hne
  · rw [hg] at hfound
    exact absurd hfound (by simp)

theorem streamHandler_header (env : Env) (parsed : Option Address) (p : Nat)
    (hp : p < 65536) (payload : List Byte) :
    TCP.streamHandler env parsed (PutUint16 p ++ payload) =
      if env.DialContextTCP (TCP.tapIPv4 parsed) p = false then
        [Event.ReadFull 2 true, Event.GetRouteTable,
          Event.DialContextTCP (TCP.tapIPv4 parsed) p 10 false]
      else
        [Event.ReadFull 2 true, Event.GetRouteTable,
          Event.DialContextTCP (TCP.tapIPv4 parsed) p 10 true, Event.HandleConn] := by
  have h := Uint16_PutUint16 p hp
  simp only [PutUint16] at h
  have hlen : ¬ (payload.length + 1 + 1 < 2) := by omega
  simp [TCP.streamHandler, ReadFull, PutUint16, h, hlen]

theorem precededBy_sound (p q : Event → Bool) (t : List Event)
    (h : precededBy p q t = true) (pre : List Event) (e : Event) (post : List Event)
    (ht : t = pre ++ e :: post) (hq : q e = true) : ∃ x ∈ pre, p x = true := by
  induction t generalizing pre with
  | nil => simp at ht
  | cons x xs ih =>
    simp only [precededBy, Bool.and_eq_true, Bool.or_eq_true, Bool.not_eq_true'] at h
    cases pre with
    | nil =>
      simp only [List.nil_append, List.cons.injEq] at ht
      rw [ht.1, hq] at h
      exact absurd h.1 (by simp)
    | cons y ys =>
      simp only [List.cons_append, List.cons.injEq] at ht
      rcases h.2 with hp | hrest
      · exact ⟨y, by simp, by rw [← ht.1]; exact hp⟩
      · obtain ⟨z, hz, hpz⟩ := ih hrest ys ht.2
        exact ⟨z, by simp [hz], hpz⟩

theorem lockHeld_cons (held : Bool) (e : Event) (es : List Event) :
    lockHeld held (e :: es) = lockHeld (lockHeld held [e]) es := by
  cases e <;> rfl

theorem lockCheck_sound (t : List Event) (held : Bool) (h : lockCheck held t = true)
    (pre : List Event) (e : Event) (post : List Event) (ht : t = pre ++ e :: post) :
    (e.isLookup = true → lockHeld held pre = true) ∧
    (e.isOutbound = true → lockHeld held pre = false) := by
  induction t generalizing pre held with
  | nil => simp at ht
  | cons x xs ih =>
    simp only [lockCheck, Bool.and_eq_true, Bool.or_eq_true, Bool.not_eq_true'] at h
    cases pre with
    | nil =>
      simp only [List.nil_append, List.cons.injEq] at ht
      rw [ht.1] at h
      refine ⟨fun hl => ?_, fun ho => ?_⟩
      · rcases h.1.1 with h1 | h1
        · rw [hl] at h1; exact absurd h1 (by simp)
        · exact h1
      · rcases h.1.2 with h1 | h1
        · rw [ho] at h1; exact absurd h1 (by simp)
        · exact h1
    | cons y ys =>
      simp only [List.cons_append, List.cons.injEq] at ht
      rw [lockHeld_cons, ← ht.1]
      exact ih _ h.2 ys ht.2

/-! ## Claims -/

/-- C1: an attempt whose local address is 169.254.c.d makes exactly one call,
`r.Complete(true)`: it takes no lock, reads neither the peer registry nor the NAT
map, and makes no stream open, header write, direct dial, endpoint creation or
bridge. -/
theorem C1_reserved_terminated (env : Env) (r : TransportEndpointID) (c d : Nat)
    (h : r.LocalAddress = [169, 254, c, d]) :
    TCP.forwarderHandler env r = [Event.Complete true] ∧
    ∀ e ∈ TCP.forwarderHandler env r,
      e.isLockOp = false ∧ e.isLookup = false ∧ e.isOutbound = false := by
  have ht : TCP.forwarderHandler env r = [Event.Complete true] := by
    simp [TCP.forwarderHandler, h, linkLocal_Contains]
  refine ⟨ht, ?_⟩
  intro e he
  rw [ht] at he
  simp at he
  subst he
  simp [Event.isLockOp, Event.isLookup, Event.isOutbound]

theorem C1_reserved_terminated_witness :
    TCP.forwarderHandler Env.allOk { sampleID with LocalAddress := [169, 254, 169, 254] }
      = [Event.Complete true] ∧
    ∀ e ∈ TCP.forwarderHandler Env.allOk { sampleID with LocalAddress := [169, 254, 169, 254] },
      e.isLockOp = false ∧ e.isLookup = false ∧ e.isOutbound = false :=
  C1_reserved_terminated Env.allOk { sampleID with LocalAddress := [169, 254, 169, 254] }
    169 254 rfl

/-- C2: for a local port p below 65536, on an attempt routed to the overlay path
whose stream open succeeds, the forwarder handler writes exactly one header; that
header decodes to p, and the stream handler that receives it (followed by any
payload) makes its one dial into the virtual stack at port p. -/
theorem C2_port_roundtrip (env : Env) (r : TransportEndpointID) (hp : r.LocalPort < 65536)
    (hres : linkLocal.Contains r.LocalAddress = false)
    (hfound : (env.GetPeerByIP r.LocalAddress).2 = true)
    (hne : (env.GetPeerByIP r.LocalAddress).1 ≠ "")
    (hopen : env.NewStream (env.Decode (env.GetPeerByIP r.LocalAddress).1).1
      LIBP2P_TAP_TCP = true)
    (env2 : Env) (parsed : Option Address) (payload : List Byte) :
    ∃ hdr, writes (TCP.forwarderHandler env r) = [hdr] ∧
      Uint16 hdr = r.LocalPort ∧
      (∃ ok, Event.DialContextTCP (TCP.tapIPv4 parsed) r.LocalPort 10 ok
        ∈ TCP.streamHandler env2 parsed (hdr ++ payload)) ∧
      ∀ a q s ok, Event.DialContextTCP a q s ok
        ∈ TCP.streamHandler env2 parsed (hdr ++ payload) → q = r.LocalPort := by
  refine ⟨PutUint16 (uint16 r.LocalPort),
    writes_overlay_route env r hres hfound hne hopen, ?_⟩
  rw [uint16_of_lt _ hp]
  refine ⟨Uint16_PutUint16 _ hp, ?_, ?_⟩
  · rw [streamHandler_header env2 parsed _ hp]
    split_ifs <;> simp
  · intro a q s ok hmem
    rw [streamHandler_header env2 parsed _ hp] at hmem
    split_ifs at hmem <;> simp at hmem <;> exact hmem.2.1

theorem C2_port_roundtrip_witness :
    sampleID.LocalPort < 65536 ∧
    linkLocal.Contains sampleID.LocalAddress = false ∧
    (Env.withPeer.GetPeerByIP sampleID.LocalAddress).2 = true ∧
    (Env.withPeer.GetPeerByIP sampleID.LocalAddress).1 ≠ "" ∧
    Env.withPeer.NewStream (Env.withPeer.Decode (Env.withPeer.GetPeerByIP
      sampleID.LocalAddress).1).1 LIBP2P_TAP_TCP = true ∧
    ∃ hdr, writes (TCP.forwarderHandler Env.withPeer sampleID) = [hdr] ∧
      Uint16 hdr = sampleID.LocalPort ∧
      (∃ ok, Event.DialContextTCP (TCP.tapIPv4 none) sampleID.LocalPort 10 ok
        ∈ TCP.streamHandler Env.allOk none (hdr ++ [71, 69, 84])) ∧
      ∀ a q s ok, Event.DialContextTCP a q s ok
        ∈ TCP.streamHandler Env.allOk none (hdr ++ [71, 69, 84]) →
          q = sampleID.LocalPort :=
  ⟨by decide, by decide, by decide, by decide, by decide,
    C2_port_roundtrip Env.withPeer sampleID (by decide) (by decide) (by decide) (by decide)
      (by decide) Env.allOk none [71, 69, 84]⟩

/-- C3: on an attempt routed to the overlay path (non-reserved, peer reported with a
non-empty peer string) whose stream open succeeds, the handler makes exactly one
write on the stream, of the 2 bytes `[p / 256, p % 256]` for local port p (below
65536) and nothing else; for p = 443 the bytes are `[0x01, 0xBB]`. -/
theorem C3_header_bytes (env : Env) (r : TransportEndpointID) (hp : r.LocalPort < 65536)
    (hres : linkLocal.Contains r.LocalAddress = false)
    (hfound : (env.GetPeerByIP r.LocalAddress).2 = true)
    (hne : (env.GetPeerByIP r.LocalAddress).1 ≠ "")
    (hopen : env.NewStream (env.Decode (env.GetPeerByIP r.LocalAddress).1).1
      LIBP2P_TAP_TCP = true) :
    writes (TCP.forwarderHandler env r) = [[r.LocalPort / 256, r.LocalPort % 256]] ∧
    (∀ b ∈ writes (TCP.forwarderHandler env r), b.length = 2) ∧
    (r.LocalPort = 443 → writes (TCP.forwarderHandler env r) = [[0x01, 0xBB]]) := by
  have hw : writes (TCP.forwarderHandler env r) = [[r.LocalPort / 256, r.LocalPort % 256]] := by
    rw [writes_overlay_route env r hres hfound hne hopen, uint16_of_lt _ hp,
      PutUint16_bytes _ hp]
  refine ⟨hw, ?_, ?_⟩
  · intro b hb
    rw [hw] at hb
    simp at hb
    subst hb
    rfl
  · intro h443
    rw [hw, h443]

theorem C3_header_bytes_witness :
    sampleID.LocalPort < 65536 ∧
    linkLocal.Contains sampleID.LocalAddress = false ∧
    (Env.withPeer.GetPeerByIP sampleID.LocalAddress).2 = true ∧
    (Env.withPeer.GetPeerByIP sampleID.LocalAddress).1 ≠ "" ∧
    Env.withPeer.NewStream (Env.withPeer.Decode (Env.withPeer.GetPeerByIP
      sampleID.LocalAddress).1).1 LIBP2P_TAP_TCP = true ∧
    (writes (TCP.forwarderHandler Env.withPeer sampleID)
      = [[sampleID.LocalPort / 256, sampleID.LocalPort % 256]] ∧
    (∀ b ∈ writes (TCP.forwarderHandler Env.withPeer sampleID), b.length = 2) ∧
    (sampleID.LocalPort = 443 →
      writes (TCP.forwarderHandler Env.withPeer sampleID) = [[0x01, 0xBB]])) :=
  ⟨by decide, by decide, by decide, by decide, by decide,
    C3_header_bytes Env.withPeer sampleID (by decide) (by decide) (by decide) (by decide)
      (by decide)⟩

/-- C4: a stream that delivers fewer than 2 bytes makes the stream handler stop after
the failed header read: no dial into the virtual stack and no bridge. -/
theorem C4_short_header_abandoned (env : Env) (parsed : Option Address) (stream : List Byte)
    (h : stream.length < 2) :
    TCP.streamHandler env parsed stream = [Event.ReadFull 2 false] ∧
    ∀ e ∈ TCP.streamHandler env parsed stream,
      e ≠ Event.HandleConn ∧ ∀ a q s ok, e ≠ Event.DialContextTCP a q s ok := by
  have ht : TCP.streamHandler env parsed stream = [Event.ReadFull 2 false] := by
    unfold TCP.streamHandler ReadFull
    simp only [h, if_true]
    split_ifs <;> rfl
  refine ⟨ht, ?_⟩
  intro e he
  rw [ht] at he
  simp at he
  subst he
  simp

theorem C4_short_header_abandoned_witness :
    [1].length < 2 ∧
    (TCP.streamHandler Env.allOk none [1] = [Event.ReadFull 2 false] ∧
    ∀ e ∈ TCP.streamHandler Env.allOk none [1],
      e ≠ Event.HandleConn ∧ ∀ a q s ok, e ≠ Event.DialContextTCP a q s ok) :=
  ⟨by decide, C4_short_header_abandoned Env.allOk none [1] (by decide)⟩

/-- C5: for a non-reserved attempt to address A and port p on which the registry
reports no peer, the handler makes exactly one direct dial; its target is (T, p)
when the NAT map holds T for A, and (A, p) when A is not a key of the map. -/
theorem C5_direct_dial_target (env : Env) (r : TransportEndpointID)
    (hres : linkLocal.Contains r.LocalAddress = false)
    (hpeer : (env.GetPeerByIP r.LocalAddress).2 = false) :
    (∀ T, env.nat r.LocalAddress = some T →
      dials (TCP.forwarderHandler env r) = [(T, r.LocalPort)]) ∧
    (env.nat r.LocalAddress = none →
      dials (TCP.forwarderHandler env r) = [(r.LocalAddress, r.LocalPort)]) := by
  rcases forwarderHandler_shape env r hres with ⟨peer, hg, _, _⟩ | ⟨hg, _⟩ | ⟨peer, _, ht⟩
  · rw [hg] at hpeer
    exact absurd hpeer (by simp)
  · rw [hg] at hpeer
    exact absurd hpeer (by simp)
  · rcases direct_shape env r ((env.nat r.LocalAddress).getD r.LocalAddress)
      with ho | ho | ho <;>
    · rw [ht, ho]
      refine ⟨fun T hT => ?_, fun hnone => ?_⟩
      · simp [dials, hT]
      · simp [dials, hnone]

theorem C5_direct_dial_target_witness :
    linkLocal.Contains sampleID.LocalAddress = false ∧
    (Env.dialFails.GetPeerByIP sampleID.LocalAddress).2 = false ∧
    ((∀ T, Env.dialFails.nat sampleID.LocalAddress = some T →
      dials (TCP.forwarderHandler Env.dialFails sampleID) = [(T, sampleID.LocalPort)]) ∧
    (Env.dialFails.nat sampleID.LocalAddress = none →
      dials (TCP.forwarderHandler Env.dialFails sampleID)
        = [(sampleID.LocalAddress, sampleID.LocalPort)])) :=
  ⟨by decide, by decide, C5_direct_dial_target Env.dialFails sampleID (by decide) (by decide)⟩

/-- C6 as stated fails: when the registry answers `found = true` with the empty peer
string, the handler opens no overlay stream and dials the untranslated address
directly. -/
theorem C6_found_empty_peer_dials_direct :
    linkLocal.Contains sampleID.LocalAddress = false ∧
    (Env.emptyPeer.GetPeerByIP sampleID.LocalAddress).2 = true ∧
    streamOpens (TCP.forwarderHandler Env.emptyPeer sampleID) = [] ∧
    dials (TCP.forwarderHandler Env.emptyPeer sampleID) = [([10, 0, 0, 7], 443)] := by
  decide

/-- C6 amended: for a non-reserved attempt on which the registry reports a peer with a
non-empty peer string that `peer.Decode` decodes without error, the handler makes
exactly one stream open, to that peer identity with protocol
"/gvisor/libp2p-tap-tcp/1.0.0", makes no direct dial and does not read the NAT
map, whatever the NAT map holds. -/
theorem C6_peer_first (env : Env) (r : TransportEndpointID)
    (hres : linkLocal.Contains r.LocalAddress = false)
    (hfound : (env.GetPeerByIP r.LocalAddress).2 = true)
    (hne : (env.GetPeerByIP r.LocalAddress).1 ≠ "")
    (pid : PeerID)
    (hdec : env.Decode (env.GetPeerByIP r.LocalAddress).1 = (pid, true)) :
    streamOpens (TCP.forwarderHandler env r) = [(pid, "/gvisor/libp2p-tap-tcp/1.0.0")] ∧
    dials (TCP.forwarderHandler env r) = [] ∧
    ∀ a, Event.natRead a ∉ TCP.forwarderHandler env r := by
  rcases forwarderHandler_shape env r hres with ⟨peer, hg, _, ht⟩ | ⟨hg, _⟩ | ⟨peer, hg, _⟩
  · rw [hg] at hdec
    simp only at hdec
    rcases overlay_shape env r peer with ho | ho | ho | ho <;>
      rw [ht, ho, hdec] <;> simp [dials, streamOpens, LIBP2P_TAP_TCP]
  · rw [hg] at hne
    exact absurd rfl hne
  · rw [hg] at hfound
    exact absurd hfound (by simp)

theorem C6_peer_first_witness :
    linkLocal.Contains sampleID.LocalAddress = false ∧
    (Env.withPeer.GetPeerByIP sampleID.LocalAddress).2 = true ∧
    (Env.withPeer.GetPeerByIP sampleID.LocalAddress).1 ≠ "" ∧
    Env.withPeer.Decode (Env.withPeer.GetPeerByIP sampleID.LocalAddress).1
      = (samplePeerID, true) ∧
    (streamOpens (TCP.forwarderHandler Env.withPeer sampleID)
      = [(samplePeerID, "/gvisor/libp2p-tap-tcp/1.0.0")] ∧
    dials (TCP.forwarderHandler Env.withPeer sampleID) = [] ∧
    ∀ a, Event.natRead a ∉ TCP.forwarderHandler Env.withPeer sampleID) :=
  ⟨by decide, by decide, by decide, by decide,
    C6_peer_first Env.withPeer sampleID (by decide) (by decide) (by decide) samplePeerID
      (by decide)⟩

/-- C7: on a non-reserved attempt routed to the direct-dial path (no peer found, or a
peer found with the empty peer string) whose dial returns an error, the handler
makes that one dial, then calls `r.Complete` exactly once, with `true`, and makes
no endpoint creation and no bridge.  The dial target is the untranslated address
when a peer was found, and otherwise the NAT value or, without one, the
untranslated address. -/
theorem C7_dial_error_terminates (env : Env) (r : TransportEndpointID)
    (hres : linkLocal.Contains r.LocalAddress = false)
    (hroute : (env.GetPeerByIP r.LocalAddress).2 = false ∨
      (env.GetPeerByIP r.LocalAddress).1 = "")
    (T : Address)
    (hT : T = if (env.GetPeerByIP r.LocalAddress).2 = true then r.LocalAddress
      else (env.nat r.LocalAddress).getD r.LocalAddress)
    (hfail : env.DialTimeout T r.LocalPort = false) :
    completes (TCP.forwarderHandler env r) = [true] ∧
    (∀ e ∈ TCP.forwarderHandler env r, e.isEndpointOrBridge = false) ∧
    dials (TCP.forwarderHandler env r) = [(T, r.LocalPort)] ∧
    Event.DialTimeout T r.LocalPort 3 false ∈ TCP.forwarderHandler env r := by
  rcases forwarderHandler_shape env r hres with ⟨peer, hg, hp, _⟩ | ⟨hg, ht⟩ | ⟨peer, hg, ht⟩
  · rw [hg] at hroute
    rcases hroute with h | h
    · exact absurd h (by simp)
    · exact absurd h hp
  · rw [hg] at hT
    simp only [if_true] at hT
    subst hT
    rw [ht, direct_dial_fail env r _ hfail]
    simp [completes, dials, Event.isEndpointOrBridge]
  · rw [hg] at hT
    simp only [Bool.false_eq_true, if_false] at hT
    subst hT
    rw [ht, direct_dial_fail env r _ hfail]
    simp [completes, dials, Event.isEndpointOrBridge]

theorem C7_dial_error_terminates_witness :
    linkLocal.Contains sampleID.LocalAddress = false ∧
    ((Env.dialFails.GetPeerByIP sampleID.LocalAddress).2 = false ∨
      (Env.dialFails.GetPeerByIP sampleID.LocalAddress).1 = "") ∧
    ([192, 168, 1, 9] = if (Env.dialFails.GetPeerByIP sampleID.LocalAddress).2 = true
      then sampleID.LocalAddress
      else (Env.dialFails.nat sampleID.LocalAddress).getD sampleID.LocalAddress) ∧
    Env.dialFails.DialTimeout [192, 168, 1, 9] sampleID.LocalPort = false ∧
    (completes (TCP.forwarderHandler Env.dialFails sampleID) = [true] ∧
    (∀ e ∈ TCP.forwarderHandler Env.dialFails sampleID, e.isEndpointOrBridge = false) ∧
    dials (TCP.forwarderHandler Env.dialFails sampleID)
      = [([192, 168, 1, 9], sampleID.LocalPort)] ∧
    Event.DialTimeout [192, 168, 1, 9] sampleID.LocalPort 3 false
      ∈ TCP.forwarderHandler Env.dialFails sampleID) :=
  ⟨by decide, by decide, by decide, by decide,
    C7_dial_error_terminates Env.dialFails sampleID (by decide) (by decide) [192, 168, 1, 9]
      (by decide) (by decide)⟩

/-- C8 fails on the code: on the overlay path, when the stream open fails, and when
the stream opens and the header write fails, the handler returns without any
call to `r.Complete`; the direct path calls `r.Complete(true)` when its dial
fails. -/
theorem C8_overlay_failure_not_completed :
    completes (TCP.forwarderHandler Env.openFails sampleID) = [] ∧
    completes (TCP.forwarderHandler Env.writeFails sampleID) = [] ∧
    TCP.forwarderHandler Env.openFails sampleID =
      [Event.Lock, Event.GetPeerByIP [10, 0, 0, 7], Event.Unlock, Event.Decode samplePeer,
        Event.NewStream samplePeerID LIBP2P_TAP_TCP false] ∧
    TCP.forwarderHandler Env.writeFails sampleID =
      [Event.Lock, Event.GetPeerByIP [10, 0, 0, 7], Event.Unlock, Event.Decode samplePeer,
        Event.NewStream samplePeerID LIBP2P_TAP_TCP true, Event.Write [1, 187] false,
        Event.Close] ∧
    completes (TCP.forwarderHandler Env.dialFails sampleID) = [true] := by
  decide

/-- C9: on the overlay path (non-reserved attempt, peer reported with a non-empty peer
string) the handler makes one stream open and at most one write and no direct
dial; every endpoint creation or bridge comes after a header write that returned
without error, every write after a stream open that returned without error, and
every bridge after an endpoint creation that returned without error; when the
open or the write fails there is no endpoint creation and no bridge;
when both succeed the endpoint is created. -/
theorem C9_overlay_order (env : Env) (r : TransportEndpointID)
    (hres : linkLocal.Contains r.LocalAddress = false)
    (hfound : (env.GetPeerByIP r.LocalAddress).2 = true)
    (hne : (env.GetPeerByIP r.LocalAddress).1 ≠ "") :
    ((streamOpens (TCP.forwarderHandler env r)).length = 1 ∧
      (writes (TCP.forwarderHandler env r)).length ≤ 1 ∧
      dials (TCP.forwarderHandler env r) = []) ∧
    (∀ pre e post, TCP.forwarderHandler env r = pre ++ e :: post →
      e.isEndpointOrBridge = true → ∃ x ∈ pre, x.isWriteOk = true) ∧
    (∀ pre e post, TCP.forwarderHandler env r = pre ++ e :: post →
      e.isWrite = true → ∃ x ∈ pre, x.isOpenOk = true) ∧
    (∀ pre e post, TCP.forwarderHandler env r = pre ++ e :: post →
      e.isBridge = true → ∃ x ∈ pre, x.isEndpointOk = true) ∧
    ((∃ pid proto, Event.NewStream pid proto false ∈ TCP.forwarderHandler env r) →
      ∀ e ∈ TCP.forwarderHandler env r, e.isEndpointOrBridge = false ∧ e.isWrite = false) ∧
    ((∃ b, Event.Write b false ∈ TCP.forwarderHandler env r) →
      ∀ e ∈ TCP.forwarderHandler env r, e.isEndpointOrBridge = false) ∧
    ((∃ pid proto b, Event.NewStream pid proto true ∈ TCP.forwarderHandler env r ∧
        Event.Write b true ∈ TCP.forwarderHandler env r) →
      ∃ ok, Event.CreateEndpoint ok ∈ TCP.forwarderHandler env r) := by
  have hshape :
      ((streamOpens (TCP.forwarderHandler env r)).length = 1 ∧
        (writes (TCP.forwarderHandler env r)).length ≤ 1 ∧
        dials (TCP.forwarderHandler env r) = []) ∧
      precededBy Event.isWriteOk Event.isEndpointOrBridge (TCP.forwarderHandler env r) = true ∧
      precededBy Event.isOpenOk Event.isWrite (TCP.forwarderHandler env r) = true ∧
      precededBy Event.isEndpointOk Event.isBridge (TCP.forwarderHandler env r) = true ∧
      ((∃ pid proto, Event.NewStream pid proto false ∈ TCP.forwarderHandler env r) →
        ∀ e ∈ TCP.forwarderHandler env r, e.isEndpointOrBridge = false ∧ e.isWrite = false) ∧
      ((∃ b, Event.Write b false ∈ TCP.forwarderHandler env r) →
        ∀ e ∈ TCP.forwarderHandler env r, e.isEndpointOrBridge = false) ∧
      ((∃ pid proto b, Event.NewStream pid proto true ∈ TCP.forwarderHandler env r ∧
          Event.Write b true ∈ TCP.forwarderHandler env r) →
        ∃ ok, Event.CreateEndpoint ok ∈ TCP.forwarderHandler env r) := by
    rcases forwarderHandler_shape env r hres with ⟨peer, hg, _, ht⟩ | ⟨hg, _⟩ | ⟨peer, hg, _⟩
    · rcases overlay_shape env r peer with ho | ho | ho | ho <;>
        rw [ht, ho] <;>
        simp [dials, streamOpens, writes, precededBy, Event.isWriteOk,
          Event.isEndpointOrBridge, Event.isOpenOk, Event.isWrite, Event.isEndpointOk,
          Event.isBridge]
    · rw [hg] at hne
      exact absurd rfl hne
    · rw [hg] at hfound
      exact absurd hfound (by simp)
  obtain ⟨h1, h2, h3, h3b, h4, h5, h6⟩ := hshape
  exact ⟨h1, fun pre e post ht he => precededBy_sound _ _ _ h2 pre e post ht he,
    fun pre e post ht he => precededBy_sound _ _ _ h3 pre e post ht he,
    fun pre e post ht he => precededBy_sound _ _ _ h3b pre e post ht he, h4, h5, h6⟩

theorem C9_overlay_order_witness :
    linkLocal.Contains sampleID.LocalAddress = false ∧
    (Env.withPeer.GetPeerByIP sampleID.LocalAddress).2 = true ∧
    (Env.withPeer.GetPeerByIP sampleID.LocalAddress).1 ≠ "" ∧
    (((streamOpens (TCP.forwarderHandler Env.withPeer sampleID)).length = 1 ∧
      (writes (TCP.forwarderHandler Env.withPeer sampleID)).length ≤ 1 ∧
      dials (TCP.forwarderHandler Env.withPeer sampleID) = []) ∧
    (∀ pre e post, TCP.forwarderHandler Env.withPeer sampleID = pre ++ e :: post →
      e.isEndpointOrBridge = true → ∃ x ∈ pre, x.isWriteOk = true) ∧
    (∀ pre e post, TCP.forwarderHandler Env.withPeer sampleID = pre ++ e :: post →
      e.isWrite = true → ∃ x ∈ pre, x.isOpenOk = true) ∧
    (∀ pre e post, TCP.forwarderHandler Env.withPeer sampleID = pre ++ e :: post →
      e.isBridge = true → ∃ x ∈ pre, x.isEndpointOk = true) ∧
    ((∃ pid proto,
        Event.NewStream pid proto false ∈ TCP.forwarderHandler Env.withPeer sampleID) →
      ∀ e ∈ TCP.forwarderHandler Env.withPeer sampleID,
        e.isEndpointOrBridge = false ∧ e.isWrite = false) ∧
    ((∃ b, Event.Write b false ∈ TCP.forwarderHandler Env.withPeer sampleID) →
      ∀ e ∈ TCP.forwarderHandler Env.withPeer sampleID, e.isEndpointOrBridge = false) ∧
    ((∃ pid proto b,
        Event.NewStream pid proto true ∈ TCP.forwarderHandler Env.withPeer sampleID ∧
        Event.Write b true ∈ TCP.forwarderHandler Env.withPeer sampleID) →
      ∃ ok, Event.CreateEndpoint ok ∈ TCP.forwarderHandler Env.withPeer sampleID)) :=
  ⟨by decide, by decide, by decide,
    C9_overlay_order Env.withPeer sampleID (by decide) (by decide) (by decide)⟩

/-- C10: a non-reserved attempt makes exactly one `Lock` and one `Unlock`, in this
order; the peer-registry lookup, and the NAT-map read made when no peer is found,
are made with the lock held; every stream open, header write, direct dial,
endpoint creation and bridge is made with the lock not held. -/
theorem C10_lock_scope (env : Env) (r : TransportEndpointID)
    (hres : linkLocal.Contains r.LocalAddress = false) :
    (TCP.forwarderHandler env r).filter Event.isLockOp = [Event.Lock, Event.Unlock] ∧
    Event.GetPeerByIP r.LocalAddress ∈ TCP.forwarderHandler env r ∧
    ((env.GetPeerByIP r.LocalAddress).2 = false →
      Event.natRead r.LocalAddress ∈ TCP.forwarderHandler env r) ∧
    ∀ pre e post, TCP.forwarderHandler env r = pre ++ e :: post →
      (e.isLookup = true → lockHeld false pre = true) ∧
      (e.isOutbound = true → lockHeld false pre = false) := by
  have hshape :
      (TCP.forwarderHandler env r).filter Event.isLockOp = [Event.Lock, Event.Unlock] ∧
      Event.GetPeerByIP r.LocalAddress ∈ TCP.forwarderHandler env r ∧
      ((env.GetPeerByIP r.LocalAddress).2 = false →
        Event.natRead r.LocalAddress ∈ TCP.forwarderHandler env r) ∧
      lockCheck false (TCP.forwarderHandler env r) = true := by
    rcases forwarderHandler_shape env r hres with ⟨peer, hg, _, ht⟩ | ⟨hg, ht⟩ | ⟨peer, hg, ht⟩
    · rcases overlay_shape env r peer with ho | ho | ho | ho <;>
        rw [ht, ho] <;>
        simp [List.filter, Event.isLockOp, lockCheck, lockHeld, Event.isLookup,
          Event.isOutbound, hg]
    · rcases direct_shape env r r.LocalAddress with ho | ho | ho <;>
        rw [ht, ho] <;>
        simp [List.filter, Event.isLockOp, lockCheck, lockHeld, Event.isLookup,
          Event.isOutbound, hg]
    · rcases direct_shape env r ((env.nat r.LocalAddress).getD r.LocalAddress)
        with ho | ho | ho <;>
        rw [ht, ho] <;>
        simp [List.filter, Event.isLockOp, lockCheck, lockHeld, Event.isLookup,
          Event.isOutbound, hg]
  obtain ⟨h1, h2, h3, h4⟩ := hshape
  exact ⟨h1, h2, h3, fun pre e post ht => lockCheck_sound _ _ h4 pre e post ht⟩

theorem C10_lock_scope_witness :
    linkLocal.Contains sampleID.LocalAddress = false ∧
    ((TCP.forwarderHandler Env.dialFails sampleID).filter Event.isLockOp
      = [Event.Lock, Event.Unlock] ∧
    Event.GetPeerByIP sampleID.LocalAddress ∈ TCP.forwarderHandler Env.dialFails sampleID ∧
    ((Env.dialFails.GetPeerByIP sampleID.LocalAddress).2 = false →
      Event.natRead sampleID.LocalAddress ∈ TCP.forwarderHandler Env.dialFails sampleID) ∧
    ∀ pre e post, TCP.forwarderHandler Env.dialFails sampleID = pre ++ e :: post →
      (e.isLookup = true → lockHeld false pre = true) ∧
      (e.isOutbound = true → lockHeld false pre = false)) :=
  ⟨by decide, C10_lock_scope Env.dialFails sampleID (by decide)⟩

end Forwarder
